import Mathlib

/-!
Shallow embedding of the SheetBridge resilience core
(`sheetbridge/store.py`, `sheetbridge/main.py`, `sheetbridge/scheduler.py`,
`sheetbridge/ratelimit.py`, `sheetbridge/validate.py`).

Scalar JSON values are modelled by `Value`; a Python dict row is an
association list `Record` (Python dicts have unique keys and preserve
insertion order).  Machine clocks (`int(time())`) are modelled by an
explicit `now : Int` argument; `time.time()` floats are modelled by `ℚ`.
Database tables become lists threaded through state-passing functions;
a SQLAlchemy session that raises before `commit` rolls back, which is
modelled by returning `Except` and keeping the pre-call state on error.
-/

namespace SheetBridge

/-- Scalar cell values: Python str / int / float / bool / None.
Floats are modelled by exact rationals. -/
inductive Value where
  | vstr (s : String)
  | vint (n : Int)
  | vnum (q : ℚ)
  | vbool (b : Bool)
  | vnull
deriving DecidableEq, Repr

/-- A row payload: ordered mapping of column name to scalar value. -/
abbrev Record := List (String × Value)

/-- Python `row.get(k)`: `None` both when the key is absent and when the
stored value is `None`. -/
def recGet (r : Record) (k : String) : Value :=
  match r.find? (fun p => p.1 == k) with
  | some p => p.2
  | none => Value.vnull

/-- Python `str(value)`, used by `insert_rows`/`upsert_by_key` for key
normalisation (`str(key_value)`). -/
def pyStr : Value → String
  | Value.vstr s => s
  | Value.vint n => toString n
  | Value.vnum q => toString q
  | Value.vbool b => if b then "True" else "False"
  | Value.vnull => "None"

/-- One persisted row of the `Row` table (`store.py`): autoincrement
primary key `id`, nullable normalised `key`, JSON `data`, `created_at`. -/
structure StoreRow where
  id : Nat
  key : Option String
  data : Record
  created_at : Int
deriving DecidableEq, Repr

/-- The `Row` table plus SQLite's next autoincrement id. -/
structure Store where
  rows : List StoreRow
  nextId : Nat
deriving DecidableEq, Repr

def emptyStore : Store := ⟨[], 1⟩

/-- `session.add(Row(...))`: append a fresh row with the next id. -/
def addRow (s : Store) (key : Option String) (data : Record) (now : Int) : Store :=
  ⟨s.rows ++ [⟨s.nextId, key, data, now⟩], s.nextId + 1⟩

/-- `session.exec(select(Row).where(Row.key == key_text)).first()` followed by
`existing.data = row; existing.created_at = now`: replace the first row whose
key matches, in place (same id). -/
def replaceByKey (rows : List StoreRow) (kt : String) (data : Record) (now : Int) :
    List StoreRow :=
  match rows with
  | [] => []
  | r :: rest =>
    if r.key == some kt then { r with data := data, created_at := now } :: rest
    else r :: replaceByKey rest kt data now

/-- Loop body of `upsert_by_key` (store.py lines 128-148), threading the
session state and the `touched` counter.  A record whose key value is `None`
raises `ValueError` under `strict`, and is skipped (`continue`) otherwise. -/
def upsertGo (kcol : String) (strict : Bool) (now : Int) :
    List Record → Store → Nat → Except String (Store × Nat)
  | [], s, t => Except.ok (s, t)
  | r :: rest, s, t =>
    match recGet r kcol with
    | Value.vnull =>
      if strict then Except.error ("missing key " ++ kcol)
      else upsertGo kcol strict now rest s t
    | v =>
      let kt := pyStr v
      match s.rows.find? (fun row => row.key == some kt) with
      | some _ => upsertGo kcol strict now rest ⟨replaceByKey s.rows kt r now, s.nextId⟩ (t + 1)
      | none => upsertGo kcol strict now rest (addRow s (some kt) r now) (t + 1)

/-- `upsert_by_key(rows, key_column, strict)` inside its session. -/
def upsert_by_key (rows : List Record) (kcol : String) (strict : Bool) (now : Int)
    (s : Store) : Except String (Store × Nat) :=
  upsertGo kcol strict now rows s 0

/-- Effect of one `upsert_by_key` call on the database: the session commits
on success and rolls back (store unchanged) when `ValueError` is raised. -/
def upsert_by_key_run (rows : List Record) (kcol : String) (strict : Bool) (now : Int)
    (s : Store) : Store × Except String Nat :=
  match upsert_by_key rows kcol strict now s with
  | Except.ok (s', n) => (s', Except.ok n)
  | Except.error e => (s, Except.error e)

/-- `insert_rows(rows)` (store.py lines 99-114): pure append; the key column
is still normalised into `Row.key` when configured. -/
def insertGo (keyColumn : Option String) (now : Int) :
    List Record → Store → Nat → Store × Nat
  | [], s, t => (s, t)
  | r :: rest, s, t =>
    let kv : Option String :=
      match keyColumn with
      | some kc =>
        match recGet r kc with
        | Value.vnull => none
        | v => some (pyStr v)
      | none => none
    insertGo keyColumn now rest (addRow s kv r now) (t + 1)

def insert_rows (keyColumn : Option String) (now : Int) (rows : List Record)
    (s : Store) : Store × Nat :=
  insertGo keyColumn now rows s 0

/-! ### Validator / Coercer (`validate.py`, `schema.py`) -/

/-- One column of the schema contract (`schema.Column`): a type name among
string / number / integer / boolean / datetime / date, and a required flag. -/
structure ColumnSpec where
  type : String
  required : Bool
deriving DecidableEq, Repr

/-- `schema.Contract`: ordered mapping of column name to `ColumnSpec`
(Python dict preserves insertion order, which drives the first-failure
short-circuit in `validate_row`). -/
structure Contract where
  columns : List (String × ColumnSpec)
deriving DecidableEq, Repr

/-- Model of the library call `int(val)` on a string: Python strips
surrounding whitespace and accepts an optional sign. -/
def pyIntOfString (s : String) : Option Int :=
  let t := s.trim
  let t := if t.startsWith "+" then t.drop 1 else t
  t.toInt?

/-- Model of the library call `float(val)` on a string: optional sign,
decimal digits with an optional fractional part. -/
def pyFloatOfString (s : String) : Option ℚ :=
  let t := s.trim
  let (neg, t) :=
    if t.startsWith "-" then (true, t.drop 1)
    else if t.startsWith "+" then (false, t.drop 1)
    else (false, t)
  let signed (q : ℚ) : ℚ := if neg then -q else q
  match t.splitOn "." with
  | [a] => (a.toNat?).map (fun n => signed n)
  | [a, b] =>
    match a.toNat?, b.toNat? with
    | some n, some m => some (signed ((n : ℚ) + (m : ℚ) / (10 ^ b.length)))
    | _, _ => none
  | _ => none

/-- `int(q)` on a float truncates toward zero. -/
def truncInt (q : ℚ) : Int :=
  if 0 ≤ q then q.floor else -((-q).floor)

/-- Components of a parsed ISO-8601 timestamp, modelling the result of the
library call `datetime.fromisoformat`. -/
structure PyDateTime where
  year : Nat
  month : Nat
  day : Nat
  hour : Nat
  minute : Nat
  second : Nat
deriving DecidableEq, Repr

def parseIsoDate (s : String) : Option (Nat × Nat × Nat) :=
  match s.splitOn "-" with
  | [a, b, c] =>
    if a.length = 4 && b.length = 2 && c.length = 2 then
      match a.toNat?, b.toNat?, c.toNat? with
      | some y, some m, some d =>
        if 1 ≤ m && m ≤ 12 && 1 ≤ d && d ≤ 31 then some (y, m, d) else none
      | _, _, _ => none
    else none
  | _ => none

def parseIsoTime (s : String) : Option (Nat × Nat × Nat) :=
  match s.splitOn ":" with
  | [a, b, c] =>
    if a.length = 2 && b.length = 2 && c.length = 2 then
      match a.toNat?, b.toNat?, c.toNat? with
      | some h, some mi, some se =>
        if h ≤ 23 && mi ≤ 59 && se ≤ 59 then some (h, mi, se) else none
      | _, _, _ => none
    else none
  | _ => none

/-- Model of `datetime.fromisoformat(str(val))`: date with optional
`T`-separated time; raises (returns `none`) on anything else. -/
def fromisoformat (s : String) : Option PyDateTime :=
  match s.splitOn "T" with
  | [d] => (parseIsoDate d).map (fun p => ⟨p.1, p.2.1, p.2.2, 0, 0, 0⟩)
  | [d, t] =>
    match parseIsoDate d, parseIsoTime t with
    | some p, some q => some ⟨p.1, p.2.1, p.2.2, q.1, q.2.1, q.2.2⟩
    | _, _ => none
  | _ => none

def pad2 (n : Nat) : String := if n < 10 then "0" ++ toString n else toString n

def pad4 (n : Nat) : String :=
  if n < 10 then "000" ++ toString n
  else if n < 100 then "00" ++ toString n
  else if n < 1000 then "0" ++ toString n
  else toString n

/-- `datetime.isoformat()` canonical re-emission. -/
def dtIso (d : PyDateTime) : String :=
  pad4 d.year ++ "-" ++ pad2 d.month ++ "-" ++ pad2 d.day ++ "T" ++
    pad2 d.hour ++ ":" ++ pad2 d.minute ++ ":" ++ pad2 d.second

/-- `datetime.date().isoformat()` canonical re-emission. -/
def dateIso (d : PyDateTime) : String :=
  pad4 d.year ++ "-" ++ pad2 d.month ++ "-" ++ pad2 d.day

/-- `_coerce(val, typ)` (validate.py lines 9-29).  `Except.error` models a
raised exception caught by `validate_row`. -/
def _coerce (val : Value) (typ : String) : Except Unit Value :=
  if val = Value.vnull then Except.ok Value.vnull
  else if typ = "string" then Except.ok (Value.vstr (pyStr val))
  else if typ = "integer" then
    match val with
    | Value.vint n => Except.ok (Value.vint n)
    | Value.vbool b => Except.ok (Value.vint (if b then 1 else 0))
    | Value.vnum q => Except.ok (Value.vint (truncInt q))
    | Value.vstr s =>
      match pyIntOfString s with
      | some n => Except.ok (Value.vint n)
      | none => Except.error ()
    | Value.vnull => Except.ok Value.vnull
  else if typ = "number" then
    match val with
    | Value.vint n => Except.ok (Value.vnum (n : ℚ))
    | Value.vbool b => Except.ok (Value.vnum (if b then 1 else 0))
    | Value.vnum q => Except.ok (Value.vnum q)
    | Value.vstr s =>
      match pyFloatOfString s with
      | some q => Except.ok (Value.vnum q)
      | none => Except.error ()
    | Value.vnull => Except.ok Value.vnull
  else if typ = "boolean" then
    match val with
    | Value.vbool b => Except.ok (Value.vbool b)
    | v =>
      let s := (pyStr v).trim.toLower
      Except.ok (Value.vbool (s = "1" || s = "true" || s = "yes" || s = "y"))
  else if typ = "datetime" then
    match fromisoformat (pyStr val) with
    | some d => Except.ok (Value.vstr (dtIso d))
    | none => Except.error ()
  else if typ = "date" then
    match fromisoformat (pyStr val) with
    | some d => Except.ok (Value.vstr (dateIso d))
    | none => Except.error ()
  else Except.ok val

/-- Column loop of `validate_row` (validate.py lines 38-48), accumulating
`clean` in contract order and short-circuiting on the first failure. -/
def validateColumns (row : Record) :
    List (String × ColumnSpec) → Record → Except String Record
  | [], clean => Except.ok clean
  | (name, col) :: rest, clean =>
    match recGet row name with
    | Value.vnull =>
      if col.required then Except.error ("missing_required:" ++ name)
      else validateColumns row rest (clean ++ [(name, Value.vnull)])
    | v =>
      match _coerce v col.type with
      | Except.ok cv => validateColumns row rest (clean ++ [(name, cv)])
      | Except.error _ => Except.error ("type_error:" ++ name ++ ":" ++ col.type)

/-- Final loop of `validate_row`: raw columns absent from `clean` pass
through unmodified, in row order. -/
def addExtras (clean : Record) (row : Record) : Record :=
  clean ++ row.filter (fun p => !(clean.any (fun c => c.1 == p.1)))

/-- `validate_row(row)` (validate.py lines 32-53): `(ok, cleaned, reason)`.
On rejection the ORIGINAL row is returned unchanged. -/
def validate_row (contract : Option Contract) (row : Record) :
    Bool × Record × Option String :=
  match contract with
  | none => (true, row, none)
  | some c =>
    match validateColumns row c.columns [] with
    | Except.error reason => (false, row, some reason)
    | Except.ok clean => (true, addExtras clean row, none)

/-! ### Idempotency cache and dead-letter queue (`store.py`) -/

/-- The response part of an `/append` body that gets cached:
`{"inserted": n, "wrote": bool, "idempotency_key": k | null}`. -/
structure AppendOut where
  inserted : Nat
  wrote : Bool
  idempotency_key : Option String
deriving DecidableEq, Repr

/-- One row of the `Idempotency` table: primary key `key`, `created_at`,
cached JSON `response`. -/
structure IdemEntry where
  created_at : Int
  response : AppendOut
deriving DecidableEq, Repr

/-- `session.get(Idempotency, key)`: primary-key lookup. -/
def lookupIdem (idem : List (String × IdemEntry)) (k : String) : Option IdemEntry :=
  (idem.find? (fun p => p.1 == k)).map (fun p => p.2)

/-- `get_idempotency(key, ttl_seconds)` (store.py lines 227-236): absent
rows and rows with `now - created_at > ttl` read as `None`. -/
def get_idempotency (idem : List (String × IdemEntry)) (k : String)
    (ttl now : Int) : Option AppendOut :=
  match lookupIdem idem k with
  | none => none
  | some e => if now - e.created_at > ttl then none else some e.response

/-- `save_idempotency(key, response)` (store.py lines 218-224):
`session.merge` replaces the row with that primary key when it exists and
inserts it otherwise. -/
def save_idempotency (idem : List (String × IdemEntry)) (k : String) (now : Int)
    (resp : AppendOut) : List (String × IdemEntry) :=
  match idem with
  | [] => [(k, ⟨now, resp⟩)]
  | p :: rest =>
    if p.1 == k then (k, ⟨now, resp⟩) :: rest
    else p :: save_idempotency rest k now resp

/-- One row of the `DeadLetter` table: autoincrement `id`, failure `reason`,
original JSON `data`, `created_at`. -/
structure DlqEntry where
  id : Nat
  reason : String
  data : Record
  created_at : Int
deriving DecidableEq, Repr

/-! ### The `/append` endpoint (`main.py` lines 217-289) -/

/-- Configuration read from `settings` by `append`. -/
structure Config where
  keyColumn : Option String
  strict : Bool
  allowWrite : Bool
  ttl : Int
  contract : Option Contract
deriving DecidableEq, Repr

/-- Outcome of the external remote write capability: credentials missing,
`append_row` succeeds, or `append_row` raises. -/
inductive Remote where
  | noCreds
  | remoteOk
  | remoteFail
deriving DecidableEq, Repr

/-- The durable state visible to `/append`: primary rows, idempotency
cache, DLQ (with its next autoincrement id). -/
structure AppState where
  store : Store
  idem : List (String × IdemEntry)
  dlq : List DlqEntry
  dlqNext : Nat
deriving DecidableEq, Repr

def emptyAppState : AppState := ⟨emptyStore, [], [], 1⟩

/-- `dlq_write(reason, data)` (store.py lines 249-253). -/
def dlq_write (st : AppState) (reason : String) (data : Record) (now : Int) : AppState :=
  { st with dlq := st.dlq ++ [⟨st.dlqNext, reason, data, now⟩], dlqNext := st.dlqNext + 1 }

/-- Response body of `/append`: the normal out-dict, the 422 validation
body `{"detail": "invalid", "reason": r}`, or an `HTTPException` detail. -/
inductive Body where
  | out (o : AppendOut)
  | invalid (reason : Option String)
  | httpErr (detail : String)
deriving DecidableEq, Repr

/-- Everything one `/append` call produces: HTTP status, body, the
`Idempotency-Replayed` header, the state after the call, and how many
remote `append_row` attempts were made. -/
structure AppendResult where
  status : Nat
  body : Body
  replayed : Bool
  state : AppState
  remoteCalls : Nat
deriving DecidableEq, Repr

/-- `if idem_key: save_idempotency(idem_key, out)` guarding every cached
response in `append`. -/
def saveIfKey (st : AppState) (ik : Option String) (now : Int) (out : AppendOut) : AppState :=
  match ik with
  | some k => { st with idem := save_idempotency st.idem k now out }
  | none => st

/-- The local-durability step of `append` (main.py lines 244-255): keyed
upsert when a key column is configured, plain insert otherwise. -/
def appendUpsert (cfg : Config) (now : Int) (cleaned : Record) (s : Store) :
    Except String (Store × Nat) :=
  match cfg.keyColumn with
  | some kc => upsert_by_key [cleaned] kc cfg.strict now s
  | none => Except.ok (insert_rows none now [cleaned] s)

/-- The tail of `append` after the local upsert succeeded (main.py lines
257-289): write-back gating, credential check, remote attempt, and the
response caching on every path. -/
def appendFinish (cfg : Config) (remote : Remote) (now : Int) (ik : Option String)
    (cleaned : Record) (st1 : AppState) (stored : Nat) : AppendResult :=
  if cfg.allowWrite = false then
    let out : AppendOut := ⟨stored, false, ik⟩
    ⟨403, Body.out out, false, saveIfKey st1 ik now out, 0⟩
  else
    match remote with
    | Remote.noCreds =>
      let out : AppendOut := ⟨stored, false, ik⟩
      ⟨200, Body.out out, false, saveIfKey st1 ik now out, 0⟩
    | Remote.remoteFail =>
      let st2 := dlq_write st1 "write_failed" cleaned now
      let out : AppendOut := ⟨stored, false, ik⟩
      ⟨200, Body.out out, false, saveIfKey st2 ik now out, 1⟩
    | Remote.remoteOk =>
      let out : AppendOut := ⟨stored, true, ik⟩
      ⟨200, Body.out out, false, saveIfKey st1 ik now out, 1⟩

/-- `append` after the idempotency gate (main.py lines 231-289). -/
def appendMain (cfg : Config) (remote : Remote) (now : Int) (ik : Option String)
    (row : Record) (st : AppState) : AppendResult :=
  let v := validate_row cfg.contract row
  if v.1 = false then
    ⟨422, Body.invalid v.2.2, false, dlq_write st ((v.2.2).getD "invalid") row now, 0⟩
  else
    match appendUpsert cfg now v.2.1 st.store with
    | Except.error e => ⟨422, Body.httpErr e, false, dlq_write st e row now, 0⟩
    | Except.ok (store', stored) =>
      appendFinish cfg remote now ik v.2.1 { st with store := store' } stored

/-- The `/append` endpoint (main.py lines 217-289): idempotency replay
short-circuit, then validation, upsert, optional remote write-back. -/
def append (cfg : Config) (remote : Remote) (now : Int) (ik : Option String)
    (row : Record) (st : AppState) : AppendResult :=
  match ik with
  | some k =>
    match get_idempotency st.idem k cfg.ttl now with
    | some cached => ⟨200, Body.out cached, true, st, 0⟩
    | none => appendMain cfg remote now ik row st
  | none => appendMain cfg remote now ik row st

/-! ### Sync Scheduler (`scheduler.py` lines 12-53) -/

/-- `SyncState`: counters and flags mutated by `run_periodic`. -/
structure SyncState where
  running : Bool
  last_started : Option ℚ
  last_finished : Option ℚ
  last_error : Option String
  total_runs : Nat
  total_errors : Nat
deriving DecidableEq, Repr

/-- Outcome of one awaited `task()` call. -/
inductive TaskResult where
  | success
  | failure (msg : String)
deriving DecidableEq, Repr

/-- One iteration of the `while True` loop of `run_periodic`:
sleep `interval + randint(0, max(0, jitter))` (the draw is a parameter),
skip if already running, else run the task, update counters, back off on
failure inside the same tick.  Returns the new `SyncState`, the backoff
for the next failure, and the sleeps performed this tick, in order. -/
def run_periodic_tick (interval jitterDraw backoff_max : Nat) (tstart tfinish : ℚ)
    (res : TaskResult) (s : SyncState) (backoff : Nat) :
    SyncState × Nat × List Nat :=
  let delay := interval + jitterDraw
  if s.running then (s, backoff, [delay])
  else
    let s1 := { s with running := true, last_started := some tstart }
    match res with
    | TaskResult.success =>
      ({ s1 with
          last_error := none
          total_runs := s1.total_runs + 1
          last_finished := some tfinish
          running := false },
       1, [delay])
    | TaskResult.failure msg =>
      ({ s1 with
          last_error := some msg
          total_errors := s1.total_errors + 1
          last_finished := some tfinish
          running := false },
       min (backoff * 2) backoff_max, [delay, min backoff backoff_max])

/-! ### DLQ Retry Worker (`scheduler.py` lines 56-82, `store.py` 276-290) -/

/-- Row ordering used by `dlq_fetch`: `ORDER BY id` ascending. -/
def dlqLe (a b : DlqEntry) : Prop := a.id ≤ b.id

instance : DecidableRel dlqLe := fun a b => Nat.decLe a.id b.id

instance : IsTotal DlqEntry dlqLe := ⟨fun a b => Nat.le_total a.id b.id⟩

instance : IsTrans DlqEntry dlqLe := ⟨fun _ _ _ h1 h2 => Nat.le_trans h1 h2⟩

/-- `dlq_fetch(limit)`: `select(DeadLetter).order_by(DeadLetter.id).limit(limit)`. -/
def dlq_fetch (dlq : List DlqEntry) (limit : Nat) : List DlqEntry :=
  (List.insertionSort dlqLe dlq).take limit

/-- `dlq_delete(ids)` (store.py lines 283-290): delete each listed id;
a no-op when `ids` is empty. -/
def dlq_delete (dlq : List DlqEntry) (ids : List Nat) : List DlqEntry :=
  dlq.filter (fun e => !(ids.contains e.id))

/-- One iteration of `retry_dlq` (scheduler.py lines 56-82).  `succeed e`
models whether `run_one_sync` redelivers entry `e` without raising
(completion order of the concurrent attempts does not affect the batched
delete, which is by id).  The loop never references the scheduler's
`SyncState`, so the tick threads it through unchanged. -/
def retry_dlq_tick (succeed : DlqEntry → Bool) (batch : Nat)
    (s : SyncState × List DlqEntry) : SyncState × List DlqEntry :=
  let rows := dlq_fetch s.2 batch
  if rows.isEmpty then s
  else
    let ok_ids := (rows.filter succeed).map (fun e => e.id)
    if ok_ids.isEmpty then s
    else (s.1, dlq_delete s.2 ok_ids)

/-! ### Rate Limiter (`ratelimit.py`) -/

/-- Per-key token bucket: `tokens` float and `updated` timestamp. -/
structure Bucket where
  tokens : ℚ
  updated : ℚ
deriving DecidableEq, Repr

/-- `allow(key, rps, burst)` (ratelimit.py lines 20-34) for one client key:
buckets are independent per key, so the argument is `_buckets.get(key)` for
that key (`none` on first use, which creates `Bucket(burst)` at the call
instant).  Returns the decision and the stored bucket. -/
def allow (now : ℚ) (rps : ℚ) (burst : Int) (b : Option Bucket) : Bool × Bucket :=
  let bucket : Bucket :=
    match b with
    | none => ⟨(burst : ℚ), now⟩
    | some bk => bk
  let elapsed := now - bucket.updated
  let tokens := min ((burst : ℚ)) (bucket.tokens + elapsed * max rps 0)
  if 1 ≤ tokens then (true, ⟨tokens - 1, now⟩)
  else (false, ⟨tokens, now⟩)

/-- The buckets produced by a sequence of `allow` calls for one key at the
given call instants (fixed `rps` and `burst`, as the middleware passes). -/
def allowTrace (rps : ℚ) (burst : Int) : List ℚ → Option Bucket → List Bucket
  | [], _ => []
  | t :: ts, b =>
    let b' := (allow t rps burst b).2
    b' :: allowTrace rps burst ts (some b')

/-! ## Theorems -/

/-! ### C1: missing key under `strict=false` -/

/-- C1 counterexample: with key column `id` and `strict=false`, upserting a
record without a key value leaves the store unchanged and counts nothing —
the record is NOT inserted as a new row, contradicting the claim that it
still appears in the store. -/
theorem C1_counterexample :
    upsert_by_key_run [[("val", Value.vint 1)]] "id" false 7 emptyStore
      = (emptyStore, Except.ok 0) ∧
    (upsert_by_key_run [[("val", Value.vint 1)]] "id" false 7 emptyStore).1.rows = [] := by
  exact ⟨rfl, rfl⟩

/-- C1 (amended): with a key column configured and `strict=false`,
`upsert_by_key` SKIPS a record whose key-column value is missing: the call
succeeds, the record is not persisted, and the returned count excludes it
(store state unchanged). -/
theorem C1_lenient_missing_key_skipped (r : Record) (kcol : String) (now : Int)
    (s : Store) (h : recGet r kcol = Value.vnull) :
    upsert_by_key_run [r] kcol false now s = (s, Except.ok 0) := by
  simp [upsert_by_key_run, upsert_by_key, upsertGo, h]

/-- C1 witness: the amended theorem applied to the empty record. -/
theorem C1_lenient_missing_key_skipped_witness :
    recGet [] "id" = Value.vnull ∧
    upsert_by_key_run [([] : Record)] "id" false 0 emptyStore
      = (emptyStore, Except.ok 0) :=
  ⟨rfl, C1_lenient_missing_key_skipped [] "id" 0 emptyStore rfl⟩

/-! ### C3: idempotency entry exactly TTL seconds old -/

/-- C3 counterexample: an idempotency entry whose `created_at` is exactly
TTL seconds before now (`created_at = 0`, `ttl = 10`, `now = 10`) is NOT
treated as absent: `get_idempotency` returns the cached response, because
the code expires only entries with `now - created_at > ttl` (strictly). -/
theorem C3_counterexample :
    get_idempotency [("K", ⟨0, ⟨1, false, some "K"⟩⟩)] "K" 10 10
      = some ⟨1, false, some "K"⟩ ∧
    get_idempotency [("K", ⟨0, ⟨1, false, some "K"⟩⟩)] "K" 10 10 ≠ none := by
  exact ⟨rfl, by decide⟩

/-- C3 (amended): an idempotency entry whose age is EXACTLY the TTL is
still a cache hit: `get_idempotency` returns the stored response, and the
next `append` with that key replays the cached response without
re-executing (state unchanged).  Only entries strictly older than TTL are
treated as absent. -/
theorem C3_ttl_boundary_is_hit (st : AppState) (k : String) (e : IdemEntry)
    (cfg : Config) (remote : Remote) (row : Record) (now : Int)
    (hl : lookupIdem st.idem k = some e)
    (hage : now - e.created_at = cfg.ttl) :
    get_idempotency st.idem k cfg.ttl now = some e.response ∧
    append cfg remote now (some k) row st
      = ⟨200, Body.out e.response, true, st, 0⟩ := by
  have hget : get_idempotency st.idem k cfg.ttl now = some e.response := by
    simp [get_idempotency, hl, hage]
  exact ⟨hget, by simp [append, hget]⟩

/-- C3 witness: the amended theorem at a concrete state (`created_at = 0`,
`ttl = now = 10`). -/
theorem C3_ttl_boundary_is_hit_witness :
    lookupIdem [("K", ⟨0, ⟨1, false, some "K"⟩⟩)] "K" = some ⟨0, ⟨1, false, some "K"⟩⟩ ∧
    get_idempotency [("K", ⟨0, ⟨1, false, some "K"⟩⟩)] "K" 10 10
      = some ⟨1, false, some "K"⟩ ∧
    append ⟨none, true, false, 10, none⟩ Remote.noCreds 10 (some "K") []
        ⟨emptyStore, [("K", ⟨0, ⟨1, false, some "K"⟩⟩)], [], 1⟩
      = ⟨200, Body.out ⟨1, false, some "K"⟩, true,
          ⟨emptyStore, [("K", ⟨0, ⟨1, false, some "K"⟩⟩)], [], 1⟩, 0⟩ := by
  refine ⟨rfl, ?_⟩
  exact C3_ttl_boundary_is_hit
    ⟨emptyStore, [("K", ⟨0, ⟨1, false, some "K"⟩⟩)], [], 1⟩ "K"
    ⟨0, ⟨1, false, some "K"⟩⟩ ⟨none, true, false, 10, none⟩
    Remote.noCreds [] 10 rfl rfl

/-! ### C4: upsert replaces in place -/

def rec1C4 : Record := [("id", Value.vstr "123"), ("val", Value.vint 1)]

def rec2C4 : Record := [("id", Value.vstr "123"), ("val", Value.vint 2)]

/-- C4: with key column `id`, appending `{id:"123", val:1}` then
`{id:"123", val:2}` leaves exactly one stored row for key `"123"`: the
second record fully replaces the first row's data, `created_at` is
refreshed to the second call's clock, and the row keeps primary key 1. -/
theorem C4_upsert_replaces (now1 now2 : Int) :
    (upsert_by_key_run [rec1C4] "id" true now1 emptyStore).1
      = ⟨[⟨1, some "123", rec1C4, now1⟩], 2⟩ ∧
    upsert_by_key_run [rec2C4] "id" true now2
        ((upsert_by_key_run [rec1C4] "id" true now1 emptyStore).1)
      = (⟨[⟨1, some "123", rec2C4, now2⟩], 2⟩, Except.ok 1) := by
  exact ⟨rfl, rfl⟩

/-! ### C5: strict upsert fails the whole call on a missing key -/

/-- Under `strict`, the session loop raises `ValueError("missing key ...")`
as soon as any record of the batch lacks the key column. -/
theorem upsertGo_error_of_missing (kcol : String) (now : Int) :
    ∀ (rows : List Record) (s : Store) (t : Nat),
      (∃ x ∈ rows, recGet x kcol = Value.vnull) →
      upsertGo kcol true now rows s t = Except.error ("missing key " ++ kcol) := by
  intro rows
  induction rows with
  | nil => intro s t h; simp at h
  | cons r rest ih =>
    intro s t h
    by_cases hc : recGet r kcol = Value.vnull
    · simp [upsertGo, hc]
    · have hmem : ∃ x ∈ rest, recGet x kcol = Value.vnull := by
        rcases h with ⟨x, hx, hnull⟩
        rcases List.mem_cons.mp hx with h1 | h1
        · exact absurd (h1 ▸ hnull) hc
        · exact ⟨x, h1, hnull⟩
      rcases hv : recGet r kcol with s' | n | q | b | _
      all_goals first
        | exact absurd hv hc
        | (rw [upsertGo]; simp only [hv]; split <;> exact ih _ _ hmem)

/-- C5: with a key column configured and `strict=true`, a batch containing
a record with no key value fails the whole `upsert_by_key` call with the
"missing key" error and the transaction rolls back: no record of the call
(including earlier ones) is persisted.  The `/append` caller turns the
error into a DLQ entry holding the original record and a 422 response. -/
theorem C5_strict_missing_key (rows : List Record) (kcol : String) (now : Int)
    (s : Store) (r : Record) (st : AppState) (aw : Bool) (remote : Remote)
    (ttl : Int)
    (hrows : ∃ x ∈ rows, recGet x kcol = Value.vnull)
    (hr : recGet r kcol = Value.vnull) :
    upsert_by_key_run rows kcol true now s
      = (s, Except.error ("missing key " ++ kcol)) ∧
    append ⟨some kcol, true, aw, ttl, none⟩ remote now none r st
      = ⟨422, Body.httpErr ("missing key " ++ kcol), false,
          dlq_write st ("missing key " ++ kcol) r now, 0⟩ := by
  have herr : upsertGo kcol true now rows s 0 = Except.error ("missing key " ++ kcol) :=
    upsertGo_error_of_missing kcol now rows s 0 hrows
  constructor
  · simp [upsert_by_key_run, upsert_by_key, herr]
  · have hone : upsertGo kcol true now [r] st.store 0
        = Except.error ("missing key " ++ kcol) :=
      upsertGo_error_of_missing kcol now [r] st.store 0 ⟨r, List.mem_singleton_self r, hr⟩
    simp [append, appendMain, validate_row, appendUpsert, upsert_by_key, hone]

/-- C5 witness: the theorem applied to a concrete two-record batch whose
second record lacks the key, against the empty store. -/
theorem C5_strict_missing_key_witness :
    upsert_by_key_run [[("v", Value.vint 1)], []] "id" true 3 emptyStore
      = (emptyStore, Except.error "missing key id") ∧
    append ⟨some "id", true, false, 5, none⟩ Remote.noCreds 3 none [] emptyAppState
      = ⟨422, Body.httpErr "missing key id", false,
          dlq_write emptyAppState "missing key id" [] 3, 0⟩ := by
  have h := C5_strict_missing_key [[("v", Value.vint 1)], []] "id" 3 emptyStore
    [] emptyAppState false Remote.noCreds 5 (by decide) rfl
  exact h

/-! ### C2: idempotent replay within TTL -/

/-- After `save_idempotency`, the primary-key lookup finds the fresh entry. -/
theorem lookupIdem_save (idem : List (String × IdemEntry)) (k : String) (now : Int)
    (resp : AppendOut) :
    lookupIdem (save_idempotency idem k now resp) k = some ⟨now, resp⟩ := by
  induction idem with
  | nil => simp [save_idempotency, lookupIdem]
  | cons p rest ih =>
    by_cases hp : p.1 == k
    · simp [save_idempotency, lookupIdem, hp]
    · simp [save_idempotency, lookupIdem, hp] at ih ⊢
      exact ih

/-- Every path through the post-upsert tail of `append` produces an
out-body response, caches it under the idempotency key, and does not mark
the response as replayed. -/
theorem appendFinish_saves (cfg : Config) (remote : Remote) (now : Int) (k : String)
    (cleaned : Record) (st1 : AppState) (stored : Nat) :
    ∃ out, (appendFinish cfg remote now (some k) cleaned st1 stored).body = Body.out out ∧
      (appendFinish cfg remote now (some k) cleaned st1 stored).state.idem
        = save_idempotency st1.idem k now out ∧
      (appendFinish cfg remote now (some k) cleaned st1 stored).replayed = false := by
  by_cases hw : cfg.allowWrite = false
  · exact ⟨⟨stored, false, some k⟩, by simp [appendFinish, hw, saveIfKey]⟩
  · cases remote
    · exact ⟨⟨stored, false, some k⟩, by simp [appendFinish, hw, saveIfKey]⟩
    · exact ⟨⟨stored, true, some k⟩, by simp [appendFinish, hw, saveIfKey]⟩
    · exact ⟨⟨stored, false, some k⟩, by simp [appendFinish, hw, saveIfKey, dlq_write]⟩

/-- A non-replayed `append` either rejects with 422 (and caches nothing) or
returns an out-body response that it caches under the supplied key. -/
theorem appendMain_status_or_saves (cfg : Config) (remote : Remote) (now : Int)
    (k : String) (row : Record) (st : AppState) :
    (appendMain cfg remote now (some k) row st).status = 422 ∨
    ∃ out, (appendMain cfg remote now (some k) row st).body = Body.out out ∧
      (appendMain cfg remote now (some k) row st).state.idem
        = save_idempotency st.idem k now out ∧
      (appendMain cfg remote now (some k) row st).replayed = false := by
  by_cases hv : (validate_row cfg.contract row).1 = false
  · left; simp [appendMain, hv]
  · rcases hu : appendUpsert cfg now (validate_row cfg.contract row).2.1 st.store with e | ⟨store', stored⟩
    · left; simp [appendMain, hv, hu]
    · right
      have hm : appendMain cfg remote now (some k) row st
          = appendFinish cfg remote now (some k) (validate_row cfg.contract row).2.1
              { st with store := store' } stored := by
        simp [appendMain, hv, hu]
      obtain ⟨out, h1, h2, h3⟩ := appendFinish_saves cfg remote now k
        (validate_row cfg.contract row).2.1 { st with store := store' } stored
      rw [hm]
      exact ⟨out, h1, h2, h3⟩

/-- C2 (amended): for a fresh idempotency key K, if the first `append` with
key K was not rejected (its response got cached: status 403 or 200), then a
second `append` with K within TTL returns a byte-identical response body,
replayed, with NO new side effects: the durable state is exactly the state
after the first call (no second insert, no DLQ write, no idempotency
update) and no remote write is attempted.  The pair therefore performs
exactly the first call's single local write.  (Rejected 422 calls are not
cached and do re-execute — see the counterexample.) -/
theorem C2_replay_within_ttl (cfg : Config) (remote : Remote) (now1 now2 : Int)
    (k : String) (row : Record) (st : AppState)
    (hfresh : lookupIdem st.idem k = none)
    (h1 : (append cfg remote now1 (some k) row st).status ≠ 422)
    (h2 : now2 - now1 ≤ cfg.ttl) :
    append cfg remote now2 (some k) row (append cfg remote now1 (some k) row st).state
      = ⟨200, (append cfg remote now1 (some k) row st).body, true,
          (append cfg remote now1 (some k) row st).state, 0⟩ := by
  have hget1 : get_idempotency st.idem k cfg.ttl now1 = none := by
    simp [get_idempotency, hfresh]
  have hR1 : append cfg remote now1 (some k) row st
      = appendMain cfg remote now1 (some k) row st := by
    simp [append, hget1]
  rw [hR1] at h1 ⊢
  rcases appendMain_status_or_saves cfg remote now1 k row st with hs | ⟨out, hbody, hidem, _⟩
  · exact absurd hs h1
  · have hl2 : lookupIdem (appendMain cfg remote now1 (some k) row st).state.idem k
        = some ⟨now1, out⟩ := by
      rw [hidem]; exact lookupIdem_save st.idem k now1 out
    have hget2 : get_idempotency (appendMain cfg remote now1 (some k) row st).state.idem
        k cfg.ttl now2 = some out := by
      simp [get_idempotency, hl2]
      omega
    simp [append, hget2, hbody]

/-- C2 witness: the theorem at a concrete successful first call (no
contract, no key column, write-back disabled, `ttl = 100`). -/
theorem C2_replay_within_ttl_witness :
    append ⟨none, true, false, 100, none⟩ Remote.noCreds 50 (some "K") [("x", Value.vint 1)]
        (append ⟨none, true, false, 100, none⟩ Remote.noCreds 0 (some "K")
          [("x", Value.vint 1)] emptyAppState).state
      = ⟨200,
          (append ⟨none, true, false, 100, none⟩ Remote.noCreds 0 (some "K")
            [("x", Value.vint 1)] emptyAppState).body,
          true,
          (append ⟨none, true, false, 100, none⟩ Remote.noCreds 0 (some "K")
            [("x", Value.vint 1)] emptyAppState).state,
          0⟩ :=
  C2_replay_within_ttl ⟨none, true, false, 100, none⟩ Remote.noCreds 0 50 "K"
    [("x", Value.vint 1)] emptyAppState rfl (by decide) (by decide)

/-- C2 counterexample: the claim fails for a first call that is rejected.
With key column `id` and `strict=true`, appending the empty record with
Idempotency-Key "K" twice within TTL yields ZERO local inserts (not
exactly one) and the second call DOES perform a new side effect: it writes
a second DLQ entry, because 422 responses are never cached. -/
theorem C2_counterexample :
    (append ⟨some "id", true, false, 86400, none⟩ Remote.noCreds 0 (some "K") []
      emptyAppState).status = 422 ∧
    (append ⟨some "id", true, false, 86400, none⟩ Remote.noCreds 0 (some "K") []
      emptyAppState).state.dlq.length = 1 ∧
    (append ⟨some "id", true, false, 86400, none⟩ Remote.noCreds 1 (some "K") []
      (append ⟨some "id", true, false, 86400, none⟩ Remote.noCreds 0 (some "K") []
        emptyAppState).state).state.dlq.length = 2 ∧
    (append ⟨some "id", true, false, 86400, none⟩ Remote.noCreds 1 (some "K") []
      (append ⟨some "id", true, false, 86400, none⟩ Remote.noCreds 0 (some "K") []
        emptyAppState).state).state.store.rows = [] ∧
    (append ⟨some "id", true, false, 86400, none⟩ Remote.noCreds 1 (some "K") []
      (append ⟨some "id", true, false, 86400, none⟩ Remote.noCreds 0 (some "K") []
        emptyAppState).state).state
      ≠ (append ⟨some "id", true, false, 86400, none⟩ Remote.noCreds 0 (some "K") []
          emptyAppState).state := by
  refine ⟨rfl, rfl, rfl, rfl, ?_⟩
  decide

/-! ### C6: one DLQ retry cycle -/

/-- With a batch at least the queue length, `dlq_fetch` returns the whole
queue in id order. -/
theorem dlq_fetch_all (dlq : List DlqEntry) (batch : Nat) (h : dlq.length ≤ batch) :
    dlq_fetch dlq batch = List.insertionSort dlqLe dlq := by
  unfold dlq_fetch
  exact List.take_of_length_le (by rw [List.length_insertionSort]; exact h)

/-- C6: in one DLQ retry cycle over N entries with `batch ≥ N`, entries are
fetched oldest-first (sorted by insertion id); if every redelivery attempt
succeeds all N entries are removed by the batched delete, and if every
attempt fails all N entries remain untouched (reasons included) with the
sync scheduler's state — in particular `total_errors` — unchanged. -/
theorem C6_dlq_retry_cycle (s : SyncState) (dlq : List DlqEntry) (batch : Nat)
    (h : dlq.length ≤ batch) :
    retry_dlq_tick (fun _ => true) batch (s, dlq) = (s, []) ∧
    retry_dlq_tick (fun _ => false) batch (s, dlq) = (s, dlq) ∧
    List.Sorted dlqLe (dlq_fetch dlq batch) := by
  have hfetch : dlq_fetch dlq batch = List.insertionSort dlqLe dlq := dlq_fetch_all dlq batch h
  have hperm : (List.insertionSort dlqLe dlq).Perm dlq := List.perm_insertionSort dlqLe dlq
  refine ⟨?_, ?_, ?_⟩
  · by_cases hnil : dlq = []
    · subst hnil
      simp [retry_dlq_tick, dlq_fetch]
    · have hne : List.insertionSort dlqLe dlq ≠ [] := by
        intro hcon
        have h2 := hperm
        rw [hcon] at h2
        exact hnil h2.symm.eq_nil
      have hdel : dlq_delete dlq ((List.insertionSort dlqLe dlq).map (fun e => e.id)) = [] := by
        unfold dlq_delete
        rw [List.filter_eq_nil_iff]
        intro e he
        have hmem : e ∈ List.insertionSort dlqLe dlq := hperm.mem_iff.mpr he
        have hid : e.id ∈ (List.insertionSort dlqLe dlq).map (fun e => e.id) :=
          List.mem_map.mpr ⟨e, hmem, rfl⟩
        simp [List.elem_iff, hid]
      simp [retry_dlq_tick, hfetch, hne, List.filter_true, hdel]
  · simp [retry_dlq_tick, hfetch, List.filter_false]
  · rw [hfetch]
    exact List.sorted_insertionSort dlqLe dlq

/-- C6 witness: a concrete two-entry queue, `batch = 5`. -/
theorem C6_dlq_retry_cycle_witness :
    retry_dlq_tick (fun _ => true) 5
        (⟨false, none, none, none, 0, 0⟩, [⟨1, "r1", [], 0⟩, ⟨2, "r2", [], 0⟩])
      = (⟨false, none, none, none, 0, 0⟩, []) ∧
    retry_dlq_tick (fun _ => false) 5
        (⟨false, none, none, none, 0, 0⟩, [⟨1, "r1", [], 0⟩, ⟨2, "r2", [], 0⟩])
      = (⟨false, none, none, none, 0, 0⟩, [⟨1, "r1", [], 0⟩, ⟨2, "r2", [], 0⟩]) ∧
    List.Sorted dlqLe (dlq_fetch [⟨1, "r1", [], 0⟩, ⟨2, "r2", [], 0⟩] 5) :=
  C6_dlq_retry_cycle ⟨false, none, none, none, 0, 0⟩
    [⟨1, "r1", [], 0⟩, ⟨2, "r2", [], 0⟩] 5 (by decide)

/-! ### C7: one scheduler tick -/

/-- C7: an executing iteration of the periodic sync loop (not skipped by
the running flag): on success it clears `last_error`, increments
`total_runs`, and resets backoff to its floor of 1; on failure it records
the exception message in `last_error`, increments `total_errors`, sleeps
`min(backoff, backoff_max)` inside the same tick (after the interval
sleep), and doubles backoff capped at `backoff_max`; in both cases
`last_finished` is recorded and `running` is false again afterwards. -/
theorem C7_scheduler_tick (interval jitterDraw backoff_max : Nat) (tstart tfinish : ℚ)
    (s : SyncState) (backoff : Nat) (msg : String) (h : s.running = false) :
    run_periodic_tick interval jitterDraw backoff_max tstart tfinish
        TaskResult.success s backoff
      = ({ s with
            running := false
            last_started := some tstart
            last_finished := some tfinish
            last_error := none
            total_runs := s.total_runs + 1 },
         1, [interval + jitterDraw]) ∧
    run_periodic_tick interval jitterDraw backoff_max tstart tfinish
        (TaskResult.failure msg) s backoff
      = ({ s with
            running := false
            last_started := some tstart
            last_finished := some tfinish
            last_error := some msg
            total_errors := s.total_errors + 1 },
         min (backoff * 2) backoff_max,
         [interval + jitterDraw, min backoff backoff_max]) := by
  constructor <;> simp [run_periodic_tick, h]

/-- C7 witness: a concrete idle state, `interval = 10`, `jitter draw = 3`,
`backoff = 4`, `backoff_max = 60`. -/
theorem C7_scheduler_tick_witness :
    run_periodic_tick 10 3 60 1 2 TaskResult.success ⟨false, none, none, none, 5, 7⟩ 4
      = (⟨false, some 1, some 2, none, 6, 7⟩, 1, [13]) ∧
    run_periodic_tick 10 3 60 1 2 (TaskResult.failure "boom")
        ⟨false, none, none, none, 5, 7⟩ 4
      = (⟨false, some 1, some 2, some "boom", 5, 8⟩, 8, [13, 4]) :=
  C7_scheduler_tick 10 3 60 1 2 ⟨false, none, none, none, 5, 7⟩ 4 "boom" rfl

/-! ### C8: token bucket burst and refill -/

/-- C8: for a fresh client key with `burst = 2` and `rate = 5`, three
immediate calls to `allow` return true, true, false; the denied third call
leaves the token count unchanged (consumes no token); and after waiting at
least `1/rate` seconds a further call returns true again. -/
theorem C8_rate_limiter (now0 d : ℚ) (h : 1 / 5 ≤ d) :
    (allow now0 5 2 none).1 = true ∧
    (allow now0 5 2 (some (allow now0 5 2 none).2)).1 = true ∧
    (allow now0 5 2 (some (allow now0 5 2 (some (allow now0 5 2 none).2)).2)).1 = false ∧
    (allow now0 5 2 (some (allow now0 5 2 (some (allow now0 5 2 none).2)).2)).2.tokens
      = (allow now0 5 2 (some (allow now0 5 2 none).2)).2.tokens ∧
    (allow (now0 + d) 5 2
      (some (allow now0 5 2
        (some (allow now0 5 2 (some (allow now0 5 2 none).2)).2)).2)).1 = true := by
  have h1 : allow now0 5 2 none = (true, ⟨1, now0⟩) := by
    norm_num [allow]
  have h2 : allow now0 5 2 (some ⟨1, now0⟩) = (true, ⟨0, now0⟩) := by
    norm_num [allow, min_def]
  have h3 : allow now0 5 2 (some ⟨0, now0⟩) = (false, ⟨0, now0⟩) := by
    norm_num [allow, min_def]
  have h4 : (allow (now0 + d) 5 2 (some ⟨0, now0⟩)).1 = true := by
    have hmax : max (5 : ℚ) 0 = 5 := by norm_num
    have harg : (0 : ℚ) + (now0 + d - now0) * 5 = d * 5 := by ring
    have htok : (1 : ℚ) ≤ min (((2 : Int)) : ℚ) ((0 : ℚ) + (now0 + d - now0) * 5) := by
      rw [harg, le_min_iff]
      constructor
      · norm_num
      · linarith
    simp only [allow, hmax]
    rw [if_pos htok]
  refine ⟨?_, ?_, ?_, ?_, ?_⟩
  · simp [h1]
  · simp [h1, h2]
  · simp [h1, h2, h3]
  · simp [h1, h2, h3]
  · simp only [h1, h2, h3]
    exact h4

/-- C8 witness: the theorem at `now0 = 0`, `d = 1/5`. -/
theorem C8_rate_limiter_witness :
    (allow 0 5 2 none).1 = true ∧
    (allow 0 5 2 (some (allow 0 5 2 none).2)).1 = true ∧
    (allow 0 5 2 (some (allow 0 5 2 (some (allow 0 5 2 none).2)).2)).1 = false ∧
    (allow 0 5 2 (some (allow 0 5 2 (some (allow 0 5 2 none).2)).2)).2.tokens
      = (allow 0 5 2 (some (allow 0 5 2 none).2)).2.tokens ∧
    (allow (0 + 1 / 5) 5 2
      (some (allow 0 5 2
        (some (allow 0 5 2 (some (allow 0 5 2 none).2)).2)).2)).1 = true :=
  C8_rate_limiter 0 (1 / 5) (le_refl (1 / 5))

/-! ### C10: token count stays within [0, burst] -/

/-- One `allow` call preserves the token range `[0, burst]` and stamps the
bucket with the call instant (for a fresh key it first creates the bucket
with `tokens = burst`). -/
theorem allow_step_inv (now rps : ℚ) (burst : Int) (b : Option Bucket)
    (hb : 0 ≤ (burst : ℚ))
    (hinv : ∀ bk, b = some bk →
      0 ≤ bk.tokens ∧ bk.tokens ≤ (burst : ℚ) ∧ bk.updated ≤ now) :
    0 ≤ (allow now rps burst b).2.tokens ∧
    (allow now rps burst b).2.tokens ≤ (burst : ℚ) ∧
    (allow now rps burst b).2.updated = now := by
  cases b with
  | none =>
    simp only [allow, sub_self, zero_mul, add_zero, min_self]
    by_cases hge : (1 : ℚ) ≤ (burst : ℚ)
    · rw [if_pos hge]
      refine ⟨?_, ?_, rfl⟩
      · show 0 ≤ (burst : ℚ) - 1
        linarith
      · show (burst : ℚ) - 1 ≤ (burst : ℚ)
        linarith
    · rw [if_neg hge]
      exact ⟨hb, le_refl _, rfl⟩
  | some bk =>
    obtain ⟨h0, hle, hup⟩ := hinv bk rfl
    have hx : bk.tokens ≤ bk.tokens + (now - bk.updated) * max rps 0 := by
      have : 0 ≤ (now - bk.updated) * max rps 0 :=
        mul_nonneg (sub_nonneg.mpr hup) (le_max_right rps 0)
      linarith
    have htok0 : 0 ≤ min ((burst : ℚ)) (bk.tokens + (now - bk.updated) * max rps 0) :=
      le_min hb (le_trans h0 hx)
    have htokb : min ((burst : ℚ)) (bk.tokens + (now - bk.updated) * max rps 0)
        ≤ (burst : ℚ) := min_le_left _ _
    simp only [allow]
    by_cases hge : (1 : ℚ) ≤ min ((burst : ℚ)) (bk.tokens + (now - bk.updated) * max rps 0)
    · rw [if_pos hge]
      refine ⟨?_, ?_, rfl⟩
      · show 0 ≤ min ((burst : ℚ)) (bk.tokens + (now - bk.updated) * max rps 0) - 1
        linarith
      · show min ((burst : ℚ)) (bk.tokens + (now - bk.updated) * max rps 0) - 1 ≤ (burst : ℚ)
        linarith
    · rw [if_neg hge]
      exact ⟨htok0, htokb, rfl⟩

/-- Invariant propagation along a whole call sequence for one key. -/
theorem allowTrace_inv (rps : ℚ) (burst : Int) (hb : 0 ≤ (burst : ℚ)) :
    ∀ (times : List ℚ) (b : Option Bucket),
      List.Chain' (· ≤ ·) times →
      (∀ bk, b = some bk →
        0 ≤ bk.tokens ∧ bk.tokens ≤ (burst : ℚ) ∧
        (∀ t, times.head? = some t → bk.updated ≤ t)) →
      ∀ x ∈ allowTrace rps burst times b, 0 ≤ x.tokens ∧ x.tokens ≤ (burst : ℚ) := by
  intro times
  induction times with
  | nil => intro b _ _ x hx; simp [allowTrace] at hx
  | cons t ts ih =>
    intro b hch hstart x hx
    have hstep := allow_step_inv t rps burst b hb
      (fun bk hbk => by
        obtain ⟨i1, i2, i3⟩ := hstart bk hbk
        exact ⟨i1, i2, i3 t rfl⟩)
    simp only [allowTrace, List.mem_cons] at hx
    rcases hx with rfl | hx
    · exact ⟨hstep.1, hstep.2.1⟩
    · refine ih (some (allow t rps burst b).2) hch.tail ?_ x hx
      intro bk hbk
      obtain rfl : (allow t rps burst b).2 = bk := by
        injection hbk
      refine ⟨hstep.1, hstep.2.1, ?_⟩
      intro t' ht'
      cases ts with
      | nil => simp at ht'
      | cons u us =>
        obtain rfl : u = t' := by simpa using ht'
        rw [hstep.2.2]
        exact (List.chain'_cons.mp hch).1

/-- C10: for any client key, any rate, any `burst ≥ 0` and any sequence of
`allow` calls at nondecreasing instants, the bucket's token count lies in
`[0, burst]` after every call; and the refill step clamps a negative rate
to zero, so (with time not flowing backwards) refilling never decreases
the token count and never pushes it above `burst`. -/
theorem C10_token_bounds :
    (∀ (rps : ℚ) (burst : Int) (times : List ℚ),
      0 ≤ (burst : ℚ) → List.Chain' (· ≤ ·) times →
      ∀ x ∈ allowTrace rps burst times none,
        0 ≤ x.tokens ∧ x.tokens ≤ (burst : ℚ)) ∧
    (∀ (bk : Bucket) (now rps : ℚ) (burst : Int),
      bk.updated ≤ now → bk.tokens ≤ (burst : ℚ) →
      bk.tokens ≤ min ((burst : ℚ)) (bk.tokens + (now - bk.updated) * max rps 0)) := by
  constructor
  · intro rps burst times hb hch x hx
    exact allowTrace_inv rps burst hb times none hch (fun bk hbk => by cases hbk) x hx
  · intro bk now rps burst hup hle
    refine le_min hle ?_
    have : 0 ≤ (now - bk.updated) * max rps 0 :=
      mul_nonneg (sub_nonneg.mpr hup) (le_max_right rps 0)
    linarith

/-- C10 witness: the trace invariant at `rps = 5`, `burst = 2`,
`times = [0]`, and the refill fact at a concrete bucket with a negative
rate. -/
theorem C10_token_bounds_witness :
    (0 ≤ ((allow 0 5 2 none).2).tokens ∧
      ((allow 0 5 2 none).2).tokens ≤ (((2 : Int)) : ℚ)) ∧
    (1 : ℚ) ≤ min (((2 : Int)) : ℚ) (1 + ((3 : ℚ) - 0) * max (-7 : ℚ) 0) := by
  constructor
  · exact C10_token_bounds.1 5 2 [0] (by norm_num) (by simp)
      ((allow 0 5 2 none).2) (by simp [allowTrace])
  · exact C10_token_bounds.2 ⟨1, 0⟩ 3 (-7) 2 (by norm_num) (by norm_num)

/-! ### C9: rejection returns the original record -/

/-- C9: whenever `validate_row` rejects a record (`ok = false`), it returns
the original input record unchanged — no partially coerced columns — and
the dead-letter entry that `/append` writes for the rejection stores the
caller's original submission verbatim. -/
theorem C9_reject_returns_original (contract : Option Contract) (row : Record)
    (h : (validate_row contract row).1 = false) :
    (validate_row contract row).2.1 = row ∧
    ∀ (remote : Remote) (now : Int) (st : AppState) (kc : Option String)
      (strict aw : Bool) (ttl : Int),
      (append ⟨kc, strict, aw, ttl, contract⟩ remote now none row st).state.dlq
        = st.dlq ++
          [⟨st.dlqNext, ((validate_row contract row).2.2).getD "invalid", row, now⟩] := by
  have horig : (validate_row contract row).2.1 = row := by
    cases contract with
    | none => simp [validate_row] at h
    | some c =>
      rcases hvc : validateColumns row c.columns [] with e | clean
      · simp [validate_row, hvc]
      · simp [validate_row, hvc] at h
  refine ⟨horig, ?_⟩
  intro remote now st kc strict aw ttl
  simp [append, appendMain, h, dlq_write]

/-- C9 witness: a contract with a required column `a` rejects the record
`{"b": 1}` and hands back exactly that record; the DLQ entry written by
`/append` holds it verbatim with the `missing_required:a` reason. -/
theorem C9_reject_returns_original_witness :
    (validate_row (some ⟨[("a", ⟨"string", true⟩)]⟩) [("b", Value.vint 1)]).2.1
      = [("b", Value.vint 1)] ∧
    (append ⟨none, true, false, 100, some ⟨[("a", ⟨"string", true⟩)]⟩⟩
        Remote.noCreds 9 none [("b", Value.vint 1)] emptyAppState).state.dlq
      = [⟨1, "missing_required:a", [("b", Value.vint 1)], 9⟩] := by
  have h := C9_reject_returns_original (some ⟨[("a", ⟨"string", true⟩)]⟩)
    [("b", Value.vint 1)] rfl
  exact ⟨h.1, h.2 Remote.noCreds 9 emptyAppState none true false 100⟩

end SheetBridge
